import Mathlib

/-!
Shallow embedding of the pharmacy sales dashboard pipeline
(`streamlit_app.py`): column-name normalization (`load_data`'s `col_map`
loop), type coercion and derived calendar fields, multi-file merge,
the sidebar filter defaults, the filter application block, the empty-result
guard with the KPI block, and the `top_produits` aggregation.

Modelling conventions:
- pandas cell values are `RawCell`: a cell that pandas would parse as a
  number is `num q` (rationals stand in for floats), a cell parseable as a
  date is `dateVal d` (day precision; the filters only ever compare
  `.dt.date`), other text is `text s`, and an empty/NaN cell is `blank`.
- `pd.to_datetime(..., errors="coerce")` is `parseDate` (non-date cells
  coerce to `none`, i.e. NaT); `pd.to_numeric(..., errors="coerce")` is
  `toNumeric` (non-numeric cells coerce to `none`, i.e. NaN) and
  `.fillna(0)` is `fillna0`.
- `astype(str)` stringifies a NaN cell to the literal string "nan", and
  `to_period("M").astype(str)` stringifies NaT to the literal string "NaT",
  exactly as pandas does.
- Python's `str.lower`/`str.strip` are modelled at ASCII precision on
  character lists (`asciiLower`, `trimL`); accented lowercase letters pass
  through unchanged, which is all the header rules need.
-/

/-- ASCII lowercasing of one character; models Python `str.lower` at the
precision the header heuristics need (non-ASCII characters unchanged). -/
def asciiLower (c : Char) : Char :=
  if 'A' ≤ c && c ≤ 'Z' then Char.ofNat (c.toNat + 32) else c

/-- Whitespace test used by the `strip` model. -/
def isSpaceCh (c : Char) : Bool :=
  c == ' ' || c == '\t' || c == '\n' || c == '\r'

/-- Strip leading and trailing whitespace from a character list; models
Python `str.strip`. -/
def trimL (l : List Char) : List Char :=
  ((l.dropWhile isSpaceCh).reverse.dropWhile isSpaceCh).reverse

/-- Lowercase then strip, as in `col.lower().strip()`. -/
def lowerTrim (l : List Char) : List Char :=
  trimL (l.map asciiLower)

/-- Contiguous-sublist check on character lists; models Python's
`needle in haystack`. -/
def isInfixL (needle : List Char) : List Char → Bool
  | [] => needle.isPrefixOf []
  | c :: t => needle.isPrefixOf (c :: t) || isInfixL needle t

/-- Lexicographic comparison by code point, the order Python `sorted`
uses on strings. -/
def lexLe : List Char → List Char → Bool
  | [], _ => true
  | _ :: _, [] => false
  | a :: as_, b :: bs => a.toNat < b.toNat || (a == b && lexLe as_ bs)

/-- String trim used for `produit` / `operateur` cleaning
(`.str.strip()`). -/
def strTrim (s : String) : String :=
  ⟨trimL s.toList⟩

/-- Column Normalizer: the `col_map` rule chain of `load_data`. Given one
raw header, returns the canonical name it maps to, or `none` when no rule
matches (such a header is left out of `col_map`). -/
def colMap (col : String) : Option String :=
  let c := lowerTrim col.toList
  if isInfixL "produit".toList c && isInfixL "nom".toList c then some "produit"
  else if isInfixL "prix ttc".toList c then some "prix_ttc"
  else if isInfixL "montant ttc".toList c then some "montant_ttc"
  else if "qt".toList.isPrefixOf c then some "quantite"
  else if isInfixL "client".toList c then some "client"
  else if isInfixL "opérateur".toList c || isInfixL "operateur".toList c then some "operateur"
  else if c == "date".toList then some "date"
  else if isInfixL "code13".toList c || isInfixL "réf".toList c || isInfixL "ref".toList c then some "code"
  else none

/-- Drop of the placeholder columns:
`tmp.loc[:, ~tmp.columns.str.contains("^Unnamed")]`. -/
def dropUnnamed (cols : List String) : List String :=
  cols.filter (fun c => !(("Unnamed".toList).isPrefixOf c.toList))

/-- Effect of `tmp.rename(columns=col_map)` on the header list: a mapped
header is replaced by its canonical name, an unmapped header keeps its raw
name (pandas `rename` never drops a column). -/
def renameCols (cols : List String) : List String :=
  cols.map (fun c => (colMap c).getD c)

/-- Header list after the Unnamed-drop and the rename, in source order. -/
def normalizeColumns (cols : List String) : List String :=
  renameCols (dropUnnamed cols)

/-- Calendar date at day precision (the granularity every filter and
derived field uses). -/
structure Date where
  y : Nat
  m : Nat
  d : Nat
deriving DecidableEq, Repr

/-- Numeric key giving the calendar order on dates. -/
def Date.key (dt : Date) : Nat :=
  dt.y * 10000 + dt.m * 100 + dt.d

/-- Boolean calendar order on dates. -/
def Date.leb (a b : Date) : Bool :=
  a.key ≤ b.key

/-- Zero-padded two-digit rendering of a month or day number. -/
def pad2 (n : Nat) : String :=
  if n < 10 then "0" ++ toString n else toString n

/-- Zero-padded four-digit rendering of a year. -/
def pad4 (n : Nat) : String :=
  if n < 10 then "000" ++ toString n
  else if n < 100 then "00" ++ toString n
  else if n < 1000 then "0" ++ toString n
  else toString n

/-- Rendering of `to_period("M").astype(str)` for a parsed date:
"YYYY-MM". -/
def formatYM (dt : Date) : String :=
  pad4 dt.y ++ "-" ++ pad2 dt.m

/-- Day-of-week name as produced by `dt.day_name()` (English locale),
computed with Zeller's congruence. -/
def dayName (dt : Date) : String :=
  let mz := if dt.m ≤ 2 then dt.m + 12 else dt.m
  let yz := if dt.m ≤ 2 then dt.y - 1 else dt.y
  let k := yz % 100
  let j := yz / 100
  let h := (dt.d + (13 * (mz + 1)) / 5 + k + k / 4 + j / 4 + 5 * j) % 7
  match h with
  | 0 => "Saturday"
  | 1 => "Sunday"
  | 2 => "Monday"
  | 3 => "Tuesday"
  | 4 => "Wednesday"
  | 5 => "Thursday"
  | _ => "Friday"

/-- One spreadsheet cell as pandas sees it after `read_excel`. -/
inductive RawCell where
  | blank
  | num (q : Rat)
  | text (s : String)
  | dateVal (dt : Date)
deriving DecidableEq, Repr

/-- Best-effort date parsing, `pd.to_datetime(..., errors="coerce")`:
anything that is not a date coerces to NaT (`none`). -/
def parseDate : RawCell → Option Date
  | .dateVal dt => some dt
  | _ => none

/-- Best-effort numeric parsing, `pd.to_numeric(..., errors="coerce")`:
anything that is not a number coerces to NaN (`none`). -/
def toNumeric : RawCell → Option Rat
  | .num q => some q
  | _ => none

/-- Replacement of NaN by 0, `.fillna(0)`. -/
def fillna0 : Option Rat → Rat
  | some q => q
  | none => 0

/-- Stringification `astype(str)`: a NaN cell becomes the literal string
"nan", other cells their textual rendering. -/
def cellStr : RawCell → String
  | .text s => s
  | .blank => "nan"
  | .num q => toString q
  | .dateVal dt => pad4 dt.y ++ "-" ++ pad2 dt.m ++ "-" ++ pad2 dt.d

/-- One data row keyed by column name (post-rename); a name that is not a
key of the row reads as an empty cell. -/
def getCell (row : List (String × RawCell)) (c : String) : RawCell :=
  match row.find? (fun p => p.1 == c) with
  | some p => p.2
  | none => RawCell.blank

/-- One input file after the header normalization of §4.1: `cols` are the
post-rename column names, `rows` the cell rows keyed by those names. -/
structure RenamedFile where
  name : String
  cols : List String
  rows : List (List (String × RawCell))

/-- Canonical Sale Record: one row of the per-file frame after the
type-coercion block of `load_data` (lines 65-97). `client` and `code` are
carried through untouched. -/
structure SaleRow where
  produit : Option String
  operateur : Option String
  client : Option RawCell
  code : Option RawCell
  date : Option Date
  jour : Option Date
  mois : Option String
  annee : Option Nat
  jourSemaine : Option String
  quantite : Rat
  montantTtc : Rat
  prixTtc : Option Rat
  sourceFile : String
deriving DecidableEq, Repr

/-- Type coercion and derivation for one row, exactly the per-file block of
`load_data`: date parsing and the four derived fields (with
`to_period("M").astype(str)` turning NaT into the string "NaT"), the
quantity default (1 when the column is absent from the file, parse-with-0
otherwise), the three-way amount fallback, and the text trimming. -/
def mkRow (f : RenamedFile) (raw : List (String × RawCell)) : SaleRow :=
  let dOpt := if f.cols.contains "date" then parseDate (getCell raw "date") else none
  let qte := if f.cols.contains "quantite" then fillna0 (toNumeric (getCell raw "quantite")) else 1
  let prix := if f.cols.contains "prix_ttc" then some (fillna0 (toNumeric (getCell raw "prix_ttc"))) else none
  let mnt :=
    if f.cols.contains "montant_ttc" then fillna0 (toNumeric (getCell raw "montant_ttc"))
    else if f.cols.contains "prix_ttc" then fillna0 (toNumeric (getCell raw "prix_ttc")) * qte
    else 0
  { produit := if f.cols.contains "produit" then some (strTrim (cellStr (getCell raw "produit"))) else none
    operateur := if f.cols.contains "operateur" then some (strTrim (cellStr (getCell raw "operateur"))) else none
    client := if f.cols.contains "client" then some (getCell raw "client") else none
    code := if f.cols.contains "code" then some (getCell raw "code") else none
    date := dOpt
    jour := dOpt
    mois := if f.cols.contains "date" then some ((dOpt.map formatYM).getD "NaT") else none
    annee := dOpt.map Date.y
    jourSemaine := dOpt.map dayName
    quantite := qte
    montantTtc := mnt
    prixTtc := prix
    sourceFile := f.name }

/-- Per-file normalization: every raw row becomes a Canonical Sale Record,
in order. -/
def loadFile (f : RenamedFile) : List SaleRow :=
  f.rows.map (mkRow f)

/-- Unified Dataset: the merged frame `df` returned by `load_data`, plus
presence flags for the columns the sidebar and filters test with
`"..." in df.columns`. `pd.concat` unions columns, so a canonical column is
present when any file contributed it, while `jour`/`mois`/`annee` (and
`quantite`/`montant_ttc`) are created for every file. -/
structure Dataset where
  rows : List SaleRow
  hasProduit : Bool
  hasOperateur : Bool
  hasDate : Bool
  hasAnnee : Bool
  hasMois : Bool

/-- Multi-Source Merger: `load_data` over a list of files
(`pd.concat(df_list, ignore_index=True)`), with the column-presence flags
of the merged frame. -/
def mkDataset (files : List RenamedFile) : Dataset :=
  { rows := files.flatMap loadFile
    hasProduit := files.any (fun f => f.cols.contains "produit")
    hasOperateur := files.any (fun f => f.cols.contains "operateur")
    hasDate := files.any (fun f => f.cols.contains "date")
    hasAnnee := !files.isEmpty
    hasMois := !files.isEmpty }

/-- Filter Criteria as delivered by the sidebar widgets: `selected_ops`
(empty list when the operator column is missing), `selected_years` and
`selected_months` (`none` when the widget was not created), the date range
and the product text filter. -/
structure Criteria where
  selectedOps : List String
  selectedYears : Option (List Nat)
  selectedMonths : Option (List String)
  dateRange : Option (Date × Date)
  textFilter : String

/-- Minimal regular-expression pattern item for the `str.contains` model:
a literal character or the any-character metacharacter. -/
inductive RItem where
  | lit (c : Char)
  | dot
deriving DecidableEq, Repr

/-- Regex metacharacters of Python `re` (quantifier braces aside, which the
claims do not exercise). -/
def isMeta (c : Char) : Bool :=
  c == '.' || c == '+' || c == '*' || c == '?' || c == '(' || c == ')' ||
  c == '[' || c == ']' || c == '^' || c == '$' || c == '|' || c == '\\'

/-- Parse a pattern into match items: '.' becomes the any-character item,
a non-metacharacter matches itself literally; any other metacharacter is
outside the modelled fragment and yields `none`. -/
def parsePat : List Char → Option (List RItem)
  | [] => some []
  | c :: rest =>
    if c == '.' then (parsePat rest).map (fun ps => RItem.dot :: ps)
    else if isMeta c then none
    else (parsePat rest).map (fun ps => RItem.lit c :: ps)

/-- Match the items against a prefix of the text. -/
def matchAt : List RItem → List Char → Bool
  | [], _ => true
  | _ :: _, [] => false
  | RItem.lit c :: ps, x :: xs => c == x && matchAt ps xs
  | RItem.dot :: ps, _ :: xs => matchAt ps xs

/-- Unanchored search, as `re.search`: try every start position. -/
def rsearch (ps : List RItem) : List Char → Bool
  | [] => matchAt ps []
  | c :: t => matchAt ps (c :: t) || rsearch ps t

/-- Model of `Series.str.contains(pat, case=False)` on one string: pandas
compiles `pat` as a regular expression (regex=True is the default) with
IGNORECASE; case folding is modelled by ASCII-lowercasing both sides. A
pattern outside the modelled fragment yields `false`. -/
def regexContains (pat s : String) : Bool :=
  match parsePat (pat.toList.map asciiLower) with
  | some ps => rsearch ps (s.toList.map asciiLower)
  | none => false

/-- Case-insensitive literal substring containment — what the spec's
"contains" wording describes. -/
def literalContains (pat s : String) : Bool :=
  isInfixL (pat.toList.map asciiLower) (s.toList.map asciiLower)

/-- Operator filter step (line 206):
`if "operateur" in df_filtre.columns and selected_ops:` then
`df_filtre[df_filtre["operateur"].isin(selected_ops)]`. A missing operator
value (NaN) is never in the selection. -/
def opStep (hasOp : Bool) (sel : List String) (rows : List SaleRow) : List SaleRow :=
  if hasOp && !sel.isEmpty then
    rows.filter (fun r => match r.operateur with
      | some s => decide (s ∈ sel)
      | none => false)
  else rows

/-- Year filter step (line 209): applied only when `selected_years` exists,
is non-empty, and the `annee` column is present; a NaN year is never in the
selection. -/
def yearStep (hasYear : Bool) (sel : Option (List Nat)) (rows : List SaleRow) : List SaleRow :=
  match sel with
  | some ys =>
    if ys.length > 0 && hasYear then
      rows.filter (fun r => match r.annee with
        | some y => decide (y ∈ ys)
        | none => false)
    else rows
  | none => rows

/-- Month filter step (line 212), same shape as the year step over the
"YYYY-MM" strings (which include the literal "NaT" for unparsed dates). -/
def monthStep (hasMonth : Bool) (sel : Option (List String)) (rows : List SaleRow) : List SaleRow :=
  match sel with
  | some ms =>
    if ms.length > 0 && hasMonth then
      rows.filter (fun r => match r.mois with
        | some m => decide (m ∈ ms)
        | none => false)
    else rows
  | none => rows

/-- Date-range filter step (lines 215-219): inclusive on both endpoints,
comparing `.dt.date`; a NaT date fails both comparisons and is dropped. -/
def dateStep (hasDate : Bool) (range : Option (Date × Date)) (rows : List SaleRow) : List SaleRow :=
  match range with
  | some (s, e) =>
    if hasDate then
      rows.filter (fun r => match r.date with
        | some dt => s.leb dt && dt.leb e
        | none => false)
    else rows
  | none => rows

/-- Product text filter step (lines 221-225): applied for a non-empty
filter string when the product column exists; `na=False` drops rows with a
missing product. -/
def textStep (hasProd : Bool) (t : String) (rows : List SaleRow) : List SaleRow :=
  if !(t == "") then
    if hasProd then
      rows.filter (fun r => match r.produit with
        | some p => regexContains t p
        | none => false)
    else rows
  else rows

/-- Filter Engine: the filter application block (lines 204-225), steps in
program order. -/
def applyFilters (ds : Dataset) (c : Criteria) : List SaleRow :=
  textStep ds.hasProduit c.textFilter
    (dateStep ds.hasDate c.dateRange
      (monthStep ds.hasMois c.selectedMonths
        (yearStep ds.hasAnnee c.selectedYears
          (opStep ds.hasOperateur c.selectedOps ds.rows))))

/-- Row predicate of one filter step, `true` whenever that step is
disabled; each step is exactly `List.filter` of its predicate. -/
def stepPred (ds : Dataset) (c : Criteria) : Fin 5 → SaleRow → Bool
  | 0 => fun r =>
    if ds.hasOperateur && !c.selectedOps.isEmpty then
      match r.operateur with
      | some s => decide (s ∈ c.selectedOps)
      | none => false
    else true
  | 1 => fun r =>
    match c.selectedYears with
    | some ys =>
      if ys.length > 0 && ds.hasAnnee then
        match r.annee with
        | some y => decide (y ∈ ys)
        | none => false
      else true
    | none => true
  | 2 => fun r =>
    match c.selectedMonths with
    | some ms =>
      if ms.length > 0 && ds.hasMois then
        match r.mois with
        | some m => decide (m ∈ ms)
        | none => false
      else true
    | none => true
  | 3 => fun r =>
    match c.dateRange with
    | some (s, e) =>
      if ds.hasDate then
        match r.date with
        | some dt => s.leb dt && dt.leb e
        | none => false
      else true
    | none => true
  | 4 => fun r =>
    if !(c.textFilter == "") && ds.hasProduit then
      match r.produit with
      | some p => regexContains c.textFilter p
      | none => false
    else true

/-- One filter step by index, in the program's numbering. -/
def applyStep (ds : Dataset) (c : Criteria) : Fin 5 → List SaleRow → List SaleRow
  | 0 => opStep ds.hasOperateur c.selectedOps
  | 1 => yearStep ds.hasAnnee c.selectedYears
  | 2 => monthStep ds.hasMois c.selectedMonths
  | 3 => dateStep ds.hasDate c.dateRange
  | 4 => textStep ds.hasProduit c.textFilter

/-- Filter steps applied in an arbitrary order given by an index list. -/
def applyOrder (ds : Dataset) (c : Criteria) (order : List (Fin 5)) : List SaleRow :=
  order.foldl (fun rows i => applyStep ds c i rows) ds.rows

/-- Code-point order on strings, the order Python `sorted` uses. -/
def strLe (a b : String) : Prop :=
  lexLe a.toList b.toList = true

instance : DecidableRel strLe := fun a b =>
  inferInstanceAs (Decidable (lexLe a.toList b.toList = true))

/-- Distinct operator values in first-occurrence order then sorted:
`sorted(df["operateur"].dropna().unique())`. -/
def allOps (ds : Dataset) : List String :=
  List.insertionSort strLe (ds.rows.filterMap SaleRow.operateur).dedup

/-- Distinct years: `sorted(df["annee"].dropna().unique())`. -/
def allYears (ds : Dataset) : List Nat :=
  List.insertionSort (· ≤ ·) (ds.rows.filterMap SaleRow.annee).dedup

/-- Distinct "YYYY-MM" strings: `sorted(df["mois"].dropna().unique())`. -/
def allMonths (ds : Dataset) : List String :=
  List.insertionSort strLe (ds.rows.filterMap SaleRow.mois).dedup

/-- Minimum of a date list (`df["date"].min()` skips NaN). -/
def minD : List Date → Option Date
  | [] => none
  | dt :: t =>
    match minD t with
    | some m => some (if m.leb dt then m else dt)
    | none => some dt

/-- Maximum of a date list (`df["date"].max()` skips NaN). -/
def maxD : List Date → Option Date
  | [] => none
  | dt :: t =>
    match maxD t with
    | some m => some (if dt.leb m then m else dt)
    | none => some dt

/-- Sidebar defaults (lines 142-199): every multiselect starts with the
full discovered value set, the date input with `[min date, max date]`, the
product text empty. -/
def defaultCriteria (ds : Dataset) : Criteria :=
  { selectedOps := if ds.hasOperateur then allOps ds else []
    selectedYears :=
      if ds.hasAnnee && ds.rows.any (fun r => r.annee.isSome) then some (allYears ds) else none
    selectedMonths :=
      if ds.hasMois && ds.rows.any (fun r => r.mois.isSome) then some (allMonths ds) else none
    dateRange :=
      if ds.hasDate && ds.rows.any (fun r => r.date.isSome) then
        match minD (ds.rows.filterMap SaleRow.date), maxD (ds.rows.filterMap SaleRow.date) with
        | some a, some b => some (a, b)
        | _, _ => none
      else none
    textFilter := "" }

/-- Summary KPIs of the KPI block (lines 235-241). -/
structure KPIs where
  caTotal : Rat
  quantiteTotale : Rat
  nbLignes : Nat
  nbJoursActifs : Nat
  caMoyJour : Rat
  montantMoyLigne : Rat
deriving DecidableEq, Repr

/-- Aggregation Engine totals over a (non-empty, by the guard) filtered
row set: sums, row count, distinct active days (`nunique` skips NaN), the
guarded per-day average, and the per-row mean. -/
def computeKpis (rows : List SaleRow) : KPIs :=
  let ca := (rows.map SaleRow.montantTtc).sum
  let nbJours := ((rows.filterMap SaleRow.jour).dedup).length
  { caTotal := ca
    quantiteTotale := (rows.map SaleRow.quantite).sum
    nbLignes := rows.length
    nbJoursActifs := nbJours
    caMoyJour := if nbJours > 0 then ca / (nbJours : Rat) else 0
    montantMoyLigne := ca / (rows.length : Rat) }

/-- Outcome of the stage after filtering: either the explicit
"Aucune donnée ne correspond aux filtres sélectionnés" stop, or the KPI
block's aggregates. -/
inductive Report where
  | noData
  | kpis (k : KPIs)
deriving DecidableEq, Repr

/-- Empty-result guard and KPI block (lines 228-241): `st.stop()` on an
empty filtered frame, otherwise aggregation. -/
def renderStats (rows : List SaleRow) : Report :=
  if rows.isEmpty then Report.noData else Report.kpis (computeKpis rows)

/-- One aggregated product line of `top_produits`: product, summed amount
(CA), summed quantity, row count. -/
structure ProdAgg where
  produit : String
  ca : Rat
  qte : Rat
  lignes : Nat
deriving DecidableEq, Repr

/-- Descending-by-CA order used by `sort_values("CA", ascending=False)`
(pandas' quicksort does not pin the order of ties; the model sorts
stably, which the stated properties do not depend on). -/
def caGe (a b : ProdAgg) : Prop :=
  b.ca ≤ a.ca

instance : DecidableRel caGe := fun a b =>
  inferInstanceAs (Decidable (b.ca ≤ a.ca))

instance : IsTotal ProdAgg caGe :=
  ⟨fun a b => (le_total b.ca a.ca).elim Or.inl Or.inr⟩

instance : IsTrans ProdAgg caGe :=
  ⟨fun _ _ _ h1 h2 => le_trans h2 h1⟩

/-- Distinct product keys of `groupby("produit")`: groupby drops rows
whose product is NaN and sorts the keys. -/
def prodKeys (rows : List SaleRow) : List String :=
  List.insertionSort strLe (rows.filterMap SaleRow.produit).dedup

/-- One aggregated line per product key: summed amount (CA), summed
quantity, row count. -/
def prodGroups (rows : List SaleRow) : List ProdAgg :=
  (prodKeys rows).map (fun p =>
    let rs := rows.filter (fun r => r.produit == some p)
    { produit := p
      ca := (rs.map SaleRow.montantTtc).sum
      qte := (rs.map SaleRow.quantite).sum
      lignes := rs.length : ProdAgg })

/-- Aggregation `top_produits` (lines 281-290): group the rows by product,
sort descending by CA, and keep the first `n`. -/
def topProduits (rows : List SaleRow) (n : Nat) : List ProdAgg :=
  (List.insertionSort caGe (prodGroups rows)).take n

/-- Row predicate actually selected by the untouched sidebar defaults: for
each predicate that is enabled at the defaults, the corresponding field
must be present; a disabled predicate passes everything. -/
def defaultPass (ds : Dataset) (r : SaleRow) : Bool :=
  (if ds.hasOperateur && !(allOps ds).isEmpty then r.operateur.isSome else true) &&
  ((if ds.hasAnnee && ds.rows.any (fun x => x.annee.isSome) then r.annee.isSome else true) &&
  ((if ds.hasMois && ds.rows.any (fun x => x.mois.isSome) then r.mois.isSome else true) &&
  (if ds.hasDate && ds.rows.any (fun x => x.date.isSome) then r.date.isSome else true)))

/-- Example sale row with only product and operator data, as produced for a
file without date or amount columns. -/
def exRowOp : SaleRow :=
  { produit := some "ASPIRINE"
    operateur := some "ALICE"
    client := none
    code := none
    date := none
    jour := none
    mois := none
    annee := none
    jourSemaine := none
    quantite := 1
    montantTtc := 10
    prixTtc := none
    sourceFile := "ventes.xlsx" }

/-- Example dataset holding just `exRowOp`, with the operator column
present. -/
def exDsOp : Dataset :=
  { rows := [exRowOp]
    hasProduit := true
    hasOperateur := true
    hasDate := false
    hasAnnee := true
    hasMois := true }

/-- Dataset with no rows at all. -/
def exDsEmpty : Dataset :=
  { rows := []
    hasProduit := false
    hasOperateur := false
    hasDate := false
    hasAnnee := false
    hasMois := false }

/-- Criteria in which every multiselect has been emptied by the user and
the other controls are untouched. -/
def exCritEmptySel : Criteria :=
  { selectedOps := []
    selectedYears := some []
    selectedMonths := some []
    dateRange := none
    textFilter := "" }

/-- Example file whose only column is a date column; its first row holds a
parseable date and its second an unparseable date cell. -/
def exFileDates : RenamedFile :=
  { name := "ventes.xlsx"
    cols := ["date"]
    rows := [[("date", RawCell.dateVal ⟨2025, 1, 5⟩)],
             [("date", RawCell.text "pas une date")]] }

/-- The parseable-date row of `exFileDates`. -/
def exRawGoodDate : List (String × RawCell) :=
  [("date", RawCell.dateVal ⟨2025, 1, 5⟩)]

/-- The unparseable-date row of `exFileDates`. -/
def exRawBadDate : List (String × RawCell) :=
  [("date", RawCell.text "pas une date")]

/-- Example file with product, quantity and amount columns; the quantity
cell of its row does not parse as a number. -/
def exFileMontant : RenamedFile :=
  { name := "aout.xlsx"
    cols := ["produit", "quantite", "montant_ttc"]
    rows := [[("produit", RawCell.text " ASPIRINE "),
              ("quantite", RawCell.text "deux"),
              ("montant_ttc", RawCell.num 100)]] }

/-- The single row of `exFileMontant`. -/
def exRawMontant : List (String × RawCell) :=
  [("produit", RawCell.text " ASPIRINE "),
   ("quantite", RawCell.text "deux"),
   ("montant_ttc", RawCell.num 100)]

/-- Example file with only product and unit-price columns (the §8 scenario
with no quantity column). -/
def exFilePrix : RenamedFile :=
  { name := "sept.xlsx"
    cols := ["produit", "prix_ttc"]
    rows := [[("produit", RawCell.text "DOLIPRANE"), ("prix_ttc", RawCell.num 20)]] }

/-- The single row of `exFilePrix`. -/
def exRawPrix : List (String × RawCell) :=
  [("produit", RawCell.text "DOLIPRANE"), ("prix_ttc", RawCell.num 20)]

/-- Fully populated example row (January 2025 sale by ALICE). -/
def exRowMix1 : SaleRow :=
  { produit := some "ASPIRINE 500"
    operateur := some "ALICE"
    client := none
    code := none
    date := some ⟨2025, 1, 5⟩
    jour := some ⟨2025, 1, 5⟩
    mois := some "2025-01"
    annee := some 2025
    jourSemaine := some "Sunday"
    quantite := 2
    montantTtc := 100
    prixTtc := none
    sourceFile := "janv.xlsx" }

/-- Fully populated example row (February 2024 sale by BOB). -/
def exRowMix2 : SaleRow :=
  { produit := some "DOLIPRANE"
    operateur := some "BOB"
    client := none
    code := none
    date := some ⟨2024, 2, 10⟩
    jour := some ⟨2024, 2, 10⟩
    mois := some "2024-02"
    annee := some 2024
    jourSemaine := some "Saturday"
    quantite := 1
    montantTtc := 50
    prixTtc := none
    sourceFile := "fev.xlsx" }

/-- Two-row dataset with every filterable column present. -/
def exDsMix : Dataset :=
  { rows := [exRowMix1, exRowMix2]
    hasProduit := true
    hasOperateur := true
    hasDate := true
    hasAnnee := true
    hasMois := true }

/-- Criteria with every predicate enabled, selecting the January 2025
ASPIRINE sale. -/
def exCritMix : Criteria :=
  { selectedOps := ["ALICE"]
    selectedYears := some [2025]
    selectedMonths := some ["2025-01"]
    dateRange := some (⟨2025, 1, 1⟩, ⟨2025, 12, 31⟩)
    textFilter := "asp" }

/-- Row whose product name is the three characters "ABC". -/
def exRowABC : SaleRow :=
  { produit := some "ABC"
    operateur := none
    client := none
    code := none
    date := none
    jour := none
    mois := none
    annee := none
    jourSemaine := none
    quantite := 1
    montantTtc := 5
    prixTtc := none
    sourceFile := "x.xlsx" }

/-- Operator step as a plain `List.filter` (the disabled case filters by
the constantly-true predicate). -/
theorem opStep_eq_filter (hasOp : Bool) (sel : List String) (rows : List SaleRow) :
    opStep hasOp sel rows = rows.filter (fun r =>
      if hasOp && !sel.isEmpty then
        match r.operateur with
        | some s => decide (s ∈ sel)
        | none => false
      else true) := by
  cases h : hasOp && !sel.isEmpty <;> simp [opStep, h]

/-- Year step as a plain `List.filter`. -/
theorem yearStep_eq_filter (hasYear : Bool) (sel : Option (List Nat)) (rows : List SaleRow) :
    yearStep hasYear sel rows = rows.filter (fun r =>
      match sel with
      | some ys =>
        if ys.length > 0 && hasYear then
          match r.annee with
          | some y => decide (y ∈ ys)
          | none => false
        else true
      | none => true) := by
  cases sel with
  | none => simp [yearStep]
  | some ys => cases h : decide (ys.length > 0) && hasYear <;>
      simp [yearStep, h]

/-- Month step as a plain `List.filter`. -/
theorem monthStep_eq_filter (hasMonth : Bool) (sel : Option (List String)) (rows : List SaleRow) :
    monthStep hasMonth sel rows = rows.filter (fun r =>
      match sel with
      | some ms =>
        if ms.length > 0 && hasMonth then
          match r.mois with
          | some m => decide (m ∈ ms)
          | none => false
        else true
      | none => true) := by
  cases sel with
  | none => simp [monthStep]
  | some ms => cases h : decide (ms.length > 0) && hasMonth <;>
      simp [monthStep, h]

/-- Date-range step as a plain `List.filter`. -/
theorem dateStep_eq_filter (hasDate : Bool) (range : Option (Date × Date)) (rows : List SaleRow) :
    dateStep hasDate range rows = rows.filter (fun r =>
      match range with
      | some (s, e) =>
        if hasDate then
          match r.date with
          | some dt => s.leb dt && dt.leb e
          | none => false
        else true
      | none => true) := by
  cases range with
  | none => simp [dateStep]
  | some p => cases hasDate <;> simp [dateStep]

/-- Text step as a plain `List.filter`. -/
theorem textStep_eq_filter (hasProd : Bool) (t : String) (rows : List SaleRow) :
    textStep hasProd t rows = rows.filter (fun r =>
      if !(t == "") && hasProd then
        match r.produit with
        | some p => regexContains t p
        | none => false
      else true) := by
  cases h : t == "" <;> cases hasProd <;> simp [textStep, h]

/-- Every filter step is `List.filter` of its `stepPred` predicate. -/
theorem applyStep_eq_filter (ds : Dataset) (c : Criteria) (i : Fin 5) (rows : List SaleRow) :
    applyStep ds c i rows = rows.filter (stepPred ds c i) := by
  fin_cases i
  · exact opStep_eq_filter ds.hasOperateur c.selectedOps rows
  · exact yearStep_eq_filter ds.hasAnnee c.selectedYears rows
  · exact monthStep_eq_filter ds.hasMois c.selectedMonths rows
  · exact dateStep_eq_filter ds.hasDate c.dateRange rows
  · exact textStep_eq_filter ds.hasProduit c.textFilter rows

/-- Folding filter steps over any index list is one `List.filter` by the
conjunction of the step predicates. -/
theorem foldSteps_eq_filter (ds : Dataset) (c : Criteria) (l : List (Fin 5)) :
    ∀ rows : List SaleRow,
      l.foldl (fun rs i => applyStep ds c i rs) rows =
        rows.filter (fun r => l.all (fun i => stepPred ds c i r)) := by
  induction l with
  | nil => intro rows; simp
  | cons i t ih =>
    intro rows
    rw [List.foldl_cons, applyStep_eq_filter, ih, List.filter_filter]
    exact List.filter_congr (fun r _ => by rw [List.all_cons, Bool.and_comm])

/-- Filter steps in an arbitrary order, as one `List.filter`. -/
theorem applyOrder_eq_filter (ds : Dataset) (c : Criteria) (l : List (Fin 5)) :
    applyOrder ds c l = ds.rows.filter (fun r => l.all (fun i => stepPred ds c i r)) :=
  foldSteps_eq_filter ds c l ds.rows

/-- Program order is the order `[0, 1, 2, 3, 4]`. -/
theorem applyFilters_eq_applyOrder (ds : Dataset) (c : Criteria) :
    applyFilters ds c = applyOrder ds c [0, 1, 2, 3, 4] := rfl

/-- A permutation of the index list does not change `List.all`. -/
theorem all_of_perm {α : Type} {l l' : List α} (h : l.Perm l') (p : α → Bool) :
    l.all p = l'.all p := by
  apply Bool.eq_iff_iff.mpr
  simp only [List.all_eq_true]
  exact ⟨fun hp x hx => hp x (h.mem_iff.mpr hx), fun hp x hx => hp x (h.mem_iff.mp hx)⟩

/-- An operator value occurring in the dataset is in the discovered
operator set. -/
theorem mem_allOps {ds : Dataset} {r : SaleRow} {s : String}
    (hr : r ∈ ds.rows) (hs : r.operateur = some s) : s ∈ allOps ds := by
  unfold allOps
  rw [List.mem_insertionSort, List.mem_dedup, List.mem_filterMap]
  exact ⟨r, hr, hs⟩

/-- A year value occurring in the dataset is in the discovered year set. -/
theorem mem_allYears {ds : Dataset} {r : SaleRow} {y : Nat}
    (hr : r ∈ ds.rows) (hy : r.annee = some y) : y ∈ allYears ds := by
  unfold allYears
  rw [List.mem_insertionSort, List.mem_dedup, List.mem_filterMap]
  exact ⟨r, hr, hy⟩

/-- A month string occurring in the dataset is in the discovered month
set. -/
theorem mem_allMonths {ds : Dataset} {r : SaleRow} {m : String}
    (hr : r ∈ ds.rows) (hm : r.mois = some m) : m ∈ allMonths ds := by
  unfold allMonths
  rw [List.mem_insertionSort, List.mem_dedup, List.mem_filterMap]
  exact ⟨r, hr, hm⟩

/-- Minimum of a non-empty date list exists. -/
theorem minD_cons (a : Date) (t : List Date) : ∃ m, minD (a :: t) = some m := by
  unfold minD
  cases minD t <;> exact ⟨_, rfl⟩

/-- Maximum of a non-empty date list exists. -/
theorem maxD_cons (a : Date) (t : List Date) : ∃ m, maxD (a :: t) = some m := by
  unfold maxD
  cases maxD t <;> exact ⟨_, rfl⟩

/-- The list minimum is a lower bound. -/
theorem minD_le {l : List Date} {m : Date} (h : minD l = some m) :
    ∀ dt ∈ l, m.leb dt = true := by
  induction l generalizing m with
  | nil => simp [minD] at h
  | cons a t ih =>
    intro dt hdt
    rcases List.mem_cons.mp hdt with hda | hdt'
    · subst hda
      cases ht : minD t with
      | none =>
        rw [minD, ht] at h
        cases h
        simp [Date.leb]
      | some mt =>
        rw [minD, ht] at h
        cases h
        split
        · assumption
        · simp [Date.leb]
    · cases ht : minD t with
      | none =>
        cases t with
        | nil => cases hdt'
        | cons b t' =>
          obtain ⟨m', hm'⟩ := minD_cons b t'
          rw [hm'] at ht
          cases ht
      | some mt =>
        rw [minD, ht] at h
        cases h
        have hmt := ih ht dt hdt'
        split
        · exact hmt
        case isFalse hle =>
          simp only [Date.leb, decide_eq_true_eq] at hmt hle ⊢
          omega

/-- The list maximum is an upper bound. -/
theorem maxD_ge {l : List Date} {m : Date} (h : maxD l = some m) :
    ∀ dt ∈ l, dt.leb m = true := by
  induction l generalizing m with
  | nil => simp [maxD] at h
  | cons a t ih =>
    intro dt hdt
    rcases List.mem_cons.mp hdt with hda | hdt'
    · subst hda
      cases ht : maxD t with
      | none =>
        rw [maxD, ht] at h
        cases h
        simp [Date.leb]
      | some mt =>
        rw [maxD, ht] at h
        cases h
        split
        · assumption
        · simp [Date.leb]
    · cases ht : maxD t with
      | none =>
        cases t with
        | nil => cases hdt'
        | cons b t' =>
          obtain ⟨m', hm'⟩ := maxD_cons b t'
          rw [hm'] at ht
          cases ht
      | some mt =>
        rw [maxD, ht] at h
        cases h
        have hmt := ih ht dt hdt'
        split
        · exact hmt
        case isFalse hle =>
          simp only [Date.leb, decide_eq_true_eq] at hmt hle ⊢
          omega

/-- At the defaults, the operator predicate keeps exactly the rows whose
operator value is present (every present value is in the discovered
set). -/
theorem stepPred_zero_default (ds : Dataset) (r : SaleRow) (hr : r ∈ ds.rows) :
    stepPred ds (defaultCriteria ds) 0 r =
      (if ds.hasOperateur && !(allOps ds).isEmpty then r.operateur.isSome else true) := by
  by_cases hop : ds.hasOperateur = true
  · cases he : (allOps ds).isEmpty with
    | true => simp [stepPred, defaultCriteria, hop, he]
    | false =>
      cases ho : r.operateur with
      | none => simp [stepPred, defaultCriteria, hop, he, ho]
      | some s => simp [stepPred, defaultCriteria, hop, he, ho, mem_allOps hr ho]
  · simp only [Bool.not_eq_true] at hop
    simp [stepPred, defaultCriteria, hop]

/-- At the defaults, the year predicate keeps exactly the rows whose year
is present. -/
theorem stepPred_one_default (ds : Dataset) (r : SaleRow) (hr : r ∈ ds.rows) :
    stepPred ds (defaultCriteria ds) 1 r =
      (if ds.hasAnnee && ds.rows.any (fun x => x.annee.isSome) then r.annee.isSome else true) := by
  cases hc : ds.hasAnnee && ds.rows.any (fun x => x.annee.isSome) with
  | false => simp [stepPred, defaultCriteria, hc]
  | true =>
    obtain ⟨ha, hany⟩ := Bool.and_eq_true_iff.mp hc
    obtain ⟨r', hr', hy'⟩ := List.any_eq_true.mp hany
    obtain ⟨y', hy⟩ := Option.isSome_iff_exists.mp hy'
    have hlen : 0 < (allYears ds).length :=
      List.length_pos.mpr (List.ne_nil_of_mem (mem_allYears hr' hy))
    cases hoy : r.annee with
    | none => simp [stepPred, defaultCriteria, hc, ha, hany, hlen, hoy]
    | some y => simp [stepPred, defaultCriteria, hc, ha, hany, hlen, hoy, mem_allYears hr hoy]

/-- At the defaults, the month predicate keeps exactly the rows whose
"YYYY-MM" string (including the literal "NaT") is present. -/
theorem stepPred_two_default (ds : Dataset) (r : SaleRow) (hr : r ∈ ds.rows) :
    stepPred ds (defaultCriteria ds) 2 r =
      (if ds.hasMois && ds.rows.any (fun x => x.mois.isSome) then r.mois.isSome else true) := by
  cases hc : ds.hasMois && ds.rows.any (fun x => x.mois.isSome) with
  | false => simp [stepPred, defaultCriteria, hc]
  | true =>
    obtain ⟨ha, hany⟩ := Bool.and_eq_true_iff.mp hc
    obtain ⟨r', hr', hm'⟩ := List.any_eq_true.mp hany
    obtain ⟨m', hm⟩ := Option.isSome_iff_exists.mp hm'
    have hlen : 0 < (allMonths ds).length :=
      List.length_pos.mpr (List.ne_nil_of_mem (mem_allMonths hr' hm))
    cases hom : r.mois with
    | none => simp [stepPred, defaultCriteria, hc, ha, hany, hlen, hom]
    | some m => simp [stepPred, defaultCriteria, hc, ha, hany, hlen, hom, mem_allMonths hr hom]

/-- At the defaults, the date-range predicate keeps exactly the rows whose
date is present (every present date lies between the discovered min and
max). -/
theorem stepPred_three_default (ds : Dataset) (r : SaleRow) (hr : r ∈ ds.rows) :
    stepPred ds (defaultCriteria ds) 3 r =
      (if ds.hasDate && ds.rows.any (fun x => x.date.isSome) then r.date.isSome else true) := by
  cases hc : ds.hasDate && ds.rows.any (fun x => x.date.isSome) with
  | false => simp [stepPred, defaultCriteria, hc]
  | true =>
    obtain ⟨ha, hany⟩ := Bool.and_eq_true_iff.mp hc
    obtain ⟨r', hr', hd'⟩ := List.any_eq_true.mp hany
    obtain ⟨d', hd⟩ := Option.isSome_iff_exists.mp hd'
    have hdmem : d' ∈ ds.rows.filterMap SaleRow.date :=
      List.mem_filterMap.mpr ⟨r', hr', hd⟩
    obtain ⟨b, t, hbt⟩ := List.exists_cons_of_ne_nil (List.ne_nil_of_mem hdmem)
    obtain ⟨mn, hmn⟩ : ∃ m, minD (ds.rows.filterMap SaleRow.date) = some m := by
      rw [hbt]; exact minD_cons b t
    obtain ⟨mx, hmx⟩ : ∃ m, maxD (ds.rows.filterMap SaleRow.date) = some m := by
      rw [hbt]; exact maxD_cons b t
    cases hod : r.date with
    | none => simp [stepPred, defaultCriteria, hc, ha, hany, hmn, hmx, hod]
    | some dt =>
      have hdtmem : dt ∈ ds.rows.filterMap SaleRow.date :=
        List.mem_filterMap.mpr ⟨r, hr, hod⟩
      have h1 := minD_le hmn dt hdtmem
      have h2 := maxD_ge hmx dt hdtmem
      simp [stepPred, defaultCriteria, hc, ha, hany, hmn, hmx, hod, h1, h2]

/-- At the defaults, the product text filter is empty and passes every
row. -/
theorem stepPred_four_default (ds : Dataset) (r : SaleRow) :
    stepPred ds (defaultCriteria ds) 4 r = true := by
  simp [stepPred, defaultCriteria]

/-- A metacharacter-free pattern parses to a sequence of literal items. -/
theorem parsePat_noMeta : ∀ l : List Char, l.all (fun c => !isMeta c) = true →
    parsePat l = some (l.map RItem.lit) := by
  intro l hl
  induction l with
  | nil => rfl
  | cons c t ih =>
    rw [List.all_cons, Bool.and_eq_true_iff] at hl
    obtain ⟨hc, ht⟩ := hl
    rw [Bool.not_eq_true'] at hc
    have hdot : (c == '.') = false := by
      cases hcd : c == '.' with
      | false => rfl
      | true =>
        have hce := eq_of_beq hcd
        rw [hce] at hc
        simp [isMeta] at hc
    simp [parsePat, hdot, hc, ih ht]

/-- Matching a sequence of literal items is matching a literal prefix. -/
theorem matchAt_lits : ∀ l xs : List Char,
    matchAt (l.map RItem.lit) xs = l.isPrefixOf xs := by
  intro l
  induction l with
  | nil => intro xs; cases xs <;> simp [matchAt, List.isPrefixOf]
  | cons c t ih =>
    intro xs
    cases xs with
    | nil => rfl
    | cons x xs' => simp [matchAt, List.isPrefixOf, ih]

/-- Searching a sequence of literal items is literal substring search. -/
theorem rsearch_lits (l : List Char) : ∀ hay : List Char,
    rsearch (l.map RItem.lit) hay = isInfixL l hay := by
  intro hay
  induction hay with
  | nil => simp [rsearch, isInfixL, matchAt_lits]
  | cons c t ih => simp [rsearch, isInfixL, matchAt_lits, ih]

/-- C1 (counterexample): the claim says an empty operator (resp. year,
month) selection set selects no rows. On `exDsOp` — operator column
present, one row — with all three selection sets empty, the filter block
returns the full row list rather than no rows: the program skips a filter
whose selection is empty. -/
theorem claim_C1_counterexample :
    exCritEmptySel.selectedOps = [] ∧
    exCritEmptySel.selectedYears = some [] ∧
    exCritEmptySel.selectedMonths = some [] ∧
    exDsOp.hasOperateur = true ∧
    applyFilters exDsOp exCritEmptySel = [exRowOp] ∧
    [exRowOp] ≠ ([] : List SaleRow) :=
  ⟨rfl, rfl, rfl, rfl, rfl, List.cons_ne_nil _ _⟩

/-- C1 (amended): an empty operator, year or month selection set disables
the corresponding predicate — the filter step returns its input rows
unchanged, so every row passes that predicate. -/
theorem claim_C1_amended (hasOp hy hm : Bool) (rows : List SaleRow) :
    opStep hasOp [] rows = rows ∧
    yearStep hy (some []) rows = rows ∧
    monthStep hm (some []) rows = rows := by
  refine ⟨?_, ?_, ?_⟩ <;> simp [opStep, yearStep, monthStep]

/-- C3 (counterexample): the claim says a header matching none of the
eight rules is dropped during normalization. The header "Remise" matches
no rule, yet it survives normalization under its raw name: pandas `rename`
keeps unmapped columns. -/
theorem claim_C3_counterexample :
    colMap "Remise" = none ∧
    normalizeColumns ["Nom Produit", "Remise"] = ["produit", "Remise"] ∧
    "Remise" ∈ normalizeColumns ["Nom Produit", "Remise"] := by
  refine ⟨?_, ?_, ?_⟩ <;> decide

/-- C3 (amended): a raw header matching none of the eight rules and not
matching the "Unnamed" placeholder pattern is retained unrenamed — it
still appears, under its raw name, in the normalized header list. -/
theorem claim_C3_amended (cols : List String) (c : String) (hc : c ∈ cols)
    (hmap : colMap c = none)
    (hun : ("Unnamed".toList).isPrefixOf c.toList = false) :
    c ∈ normalizeColumns cols := by
  unfold normalizeColumns renameCols dropUnnamed
  refine List.mem_map.mpr ⟨c, ?_, by rw [hmap]; rfl⟩
  exact List.mem_filter.mpr ⟨hc, by rw [hun]; rfl⟩

/-- Witness for C3 (amended) at the concrete header list
`["Nom Produit", "Remise"]`. -/
theorem claim_C3_witness : "Remise" ∈ normalizeColumns ["Nom Produit", "Remise"] :=
  claim_C3_amended ["Nom Produit", "Remise"] "Remise" (by decide) (by decide) (by decide)

/-- C4: for every row of every normalized file, the amount follows the
three-way fallback — the numeric-parsed amount cell with unparseable cells
as 0 when an amount column exists, else unit price times (coerced)
quantity when only a price column exists, else 0. It is a total rational
by construction, hence never missing. -/
theorem claim_C4 (f : RenamedFile) (raw : List (String × RawCell)) (hraw : raw ∈ f.rows) :
    mkRow f raw ∈ loadFile f ∧
    (f.cols.contains "montant_ttc" = true →
      (mkRow f raw).montantTtc = fillna0 (toNumeric (getCell raw "montant_ttc"))) ∧
    (f.cols.contains "montant_ttc" = false → f.cols.contains "prix_ttc" = true →
      (mkRow f raw).montantTtc =
        fillna0 (toNumeric (getCell raw "prix_ttc")) * (mkRow f raw).quantite) ∧
    (f.cols.contains "montant_ttc" = false → f.cols.contains "prix_ttc" = false →
      (mkRow f raw).montantTtc = 0) := by
  refine ⟨?_, ?_, ?_, ?_⟩
  · unfold loadFile
    exact List.mem_map_of_mem _ hraw
  · intro h
    simp at h
    simp [mkRow, h]
  · intro h1 h2
    simp at h1 h2
    simp [mkRow, h1, h2]
  · intro h1 h2
    simp at h1 h2
    simp [mkRow, h1, h2]

/-- Witness for C4 on the §8 price-only scenario: DOLIPRANE at price 20
with no quantity column yields amount 20 * 1 = 20. -/
theorem claim_C4_witness :
    (mkRow exFilePrix exRawPrix).montantTtc =
      fillna0 (toNumeric (getCell exRawPrix "prix_ttc")) * (mkRow exFilePrix exRawPrix).quantite ∧
    (mkRow exFilePrix exRawPrix).montantTtc = 20 :=
  by
  have h := (claim_C4 exFilePrix exRawPrix (by decide)).2.2.1 (by decide) (by decide)
  refine ⟨h, ?_⟩
  rw [h]
  have hq : (mkRow exFilePrix exRawPrix).quantite = 1 := rfl
  rw [hq, mul_one]
  rfl

/-- C5: quantity is 1 when the source file has no quantity column at all,
and 0 when the column exists but the row's cell fails numeric parsing; the
presence test depends only on the file's column list, once per file. -/
theorem claim_C5 (f : RenamedFile) (raw : List (String × RawCell)) (hraw : raw ∈ f.rows) :
    mkRow f raw ∈ loadFile f ∧
    (f.cols.contains "quantite" = false → (mkRow f raw).quantite = 1) ∧
    (f.cols.contains "quantite" = true → toNumeric (getCell raw "quantite") = none →
      (mkRow f raw).quantite = 0) := by
  refine ⟨?_, ?_, ?_⟩
  · unfold loadFile
    exact List.mem_map_of_mem _ hraw
  · intro h
    simp at h
    simp [mkRow, h]
  · intro h hq
    simp at h
    simp [mkRow, h, hq, fillna0]

/-- Witness for C5: the price-only file has no quantity column and yields
quantity 1; the amount file has a quantity column whose cell "deux" fails
to parse and yields quantity 0. -/
theorem claim_C5_witness :
    (mkRow exFilePrix exRawPrix).quantite = 1 ∧
    (mkRow exFileMontant exRawMontant).quantite = 0 :=
  ⟨(claim_C5 exFilePrix exRawPrix (by decide)).2.1 (by decide),
   (claim_C5 exFileMontant exRawMontant (by decide)).2.2 (by decide) (by decide)⟩

/-- C2 (counterexample): the claim says the untouched defaults pass every
row, including rows whose date is missing. Loading a one-column date file
with one parseable and one unparseable date and filtering with the
defaults keeps only the parseable-date row: the unparsed row's year is NaN
and fails the enabled year-membership predicate, and its NaT date fails
the date-range mask. -/
theorem claim_C2_counterexample :
    applyFilters (mkDataset [exFileDates]) (defaultCriteria (mkDataset [exFileDates])) ≠
      (mkDataset [exFileDates]).rows ∧
    ((mkDataset [exFileDates]).rows).length = 2 ∧
    (applyFilters (mkDataset [exFileDates]) (defaultCriteria (mkDataset [exFileDates]))).length = 1 ∧
    (mkRow exFileDates exRawBadDate).date = none := by
  refine ⟨?_, rfl, rfl, rfl⟩
  decide

/-- C2 (amended): with every control at its untouched default, a row
passes iff every predicate that is enabled at the defaults finds its field
present — rows whose date did not parse are dropped by the enabled year
and date-range predicates, and rows lacking an operator or month value are
dropped by the respective enabled predicates; a predicate that is disabled
(column absent dataset-wide, or no discoverable value) passes every
row. -/
theorem claim_C2_amended (ds : Dataset) :
    applyFilters ds (defaultCriteria ds) = ds.rows.filter (defaultPass ds) := by
  rw [applyFilters_eq_applyOrder, applyOrder_eq_filter]
  refine List.filter_congr (fun r hr => ?_)
  simp only [List.all_cons, List.all_nil, Bool.and_true]
  rw [stepPred_zero_default ds r hr, stepPred_one_default ds r hr,
    stepPred_two_default ds r hr, stepPred_three_default ds r hr,
    stepPred_four_default ds r]
  simp [defaultPass]

/-- C6 (counterexample): the claim says all four derived fields are
missing when the date fails to parse. On the unparseable-date row, day,
year and weekday are missing, but the month field holds the literal string
"NaT" (`to_period("M").astype(str)` stringifies NaT), so it is not
missing. -/
theorem claim_C6_counterexample :
    parseDate (getCell exRawBadDate "date") = none ∧
    (mkRow exFileDates exRawBadDate).jour = none ∧
    (mkRow exFileDates exRawBadDate).annee = none ∧
    (mkRow exFileDates exRawBadDate).jourSemaine = none ∧
    (mkRow exFileDates exRawBadDate).mois = some "NaT" ∧
    (mkRow exFileDates exRawBadDate).mois ≠ none := by
  refine ⟨rfl, rfl, rfl, rfl, rfl, ?_⟩
  decide

/-- C6 (amended): when the date column is absent, all four derived fields
are missing; when it is present and the cell parses, day, month, year and
weekday hold the calendar date, the "YYYY-MM" string, the year and the day
name; when it is present but the cell does not parse, day, year and
weekday are missing while month holds the literal string "NaT". -/
theorem claim_C6_amended (f : RenamedFile) (raw : List (String × RawCell))
    (hraw : raw ∈ f.rows) :
    mkRow f raw ∈ loadFile f ∧
    (f.cols.contains "date" = false →
      (mkRow f raw).jour = none ∧ (mkRow f raw).mois = none ∧
      (mkRow f raw).annee = none ∧ (mkRow f raw).jourSemaine = none) ∧
    (f.cols.contains "date" = true → ∀ dt : Date, parseDate (getCell raw "date") = some dt →
      (mkRow f raw).jour = some dt ∧ (mkRow f raw).mois = some (formatYM dt) ∧
      (mkRow f raw).annee = some dt.y ∧ (mkRow f raw).jourSemaine = some (dayName dt)) ∧
    (f.cols.contains "date" = true → parseDate (getCell raw "date") = none →
      (mkRow f raw).jour = none ∧ (mkRow f raw).mois = some "NaT" ∧
      (mkRow f raw).annee = none ∧ (mkRow f raw).jourSemaine = none) := by
  refine ⟨?_, ?_, ?_, ?_⟩
  · unfold loadFile
    exact List.mem_map_of_mem _ hraw
  · intro h
    simp at h
    simp [mkRow, h]
  · intro h dt hdt
    simp at h
    simp [mkRow, h, hdt]
  · intro h hdt
    simp at h
    simp [mkRow, h, hdt]

/-- Witness for C6 (amended) on the parseable-date row: 2025-01-05 yields
day 2025-01-05, month "2025-01", year 2025, weekday "Sunday". -/
theorem claim_C6_witness :
    (mkRow exFileDates exRawGoodDate).jour = some ⟨2025, 1, 5⟩ ∧
    (mkRow exFileDates exRawGoodDate).mois = some "2025-01" ∧
    (mkRow exFileDates exRawGoodDate).annee = some 2025 ∧
    (mkRow exFileDates exRawGoodDate).jourSemaine = some "Sunday" := by
  have h := (claim_C6_amended exFileDates exRawGoodDate (by decide)).2.2.1 (by decide)
    ⟨2025, 1, 5⟩ (by decide)
  exact ⟨h.1, h.2.1.trans (by decide), h.2.2.1, h.2.2.2.trans (by decide)⟩

/-- C7: when filtering yields the empty row set the stage reports the
explicit no-matching-rows outcome and never reaches the KPI aggregation;
for a non-empty filtered set, aggregation proceeds on exactly that set. -/
theorem claim_C7 (ds : Dataset) (c : Criteria) :
    (applyFilters ds c = [] → renderStats (applyFilters ds c) = Report.noData) ∧
    (applyFilters ds c ≠ [] →
      renderStats (applyFilters ds c) = Report.kpis (computeKpis (applyFilters ds c))) := by
  constructor
  · intro h
    simp [renderStats, h]
  · intro h
    cases hemp : (applyFilters ds c).isEmpty with
    | false => simp [renderStats, hemp]
    | true => exact absurd (List.isEmpty_iff.mp hemp) h

/-- Witness for C7: the empty dataset filters to the no-data outcome, and
the one-row dataset filters to a KPI report. -/
theorem claim_C7_witness :
    renderStats (applyFilters exDsEmpty exCritEmptySel) = Report.noData ∧
    renderStats (applyFilters exDsOp exCritEmptySel) =
      Report.kpis (computeKpis (applyFilters exDsOp exCritEmptySel)) :=
  ⟨(claim_C7 exDsEmpty exCritEmptySel).1 rfl,
   (claim_C7 exDsOp exCritEmptySel).2 (by decide)⟩

/-- C8: for every row set and every n, `top_produits` returns at most n
entries, with pairwise-distinct products (one per distinct product key),
and its CA column is sorted in descending order. -/
theorem claim_C8 (rows : List SaleRow) (n : Nat) :
    (topProduits rows n).length ≤ n ∧
    ((topProduits rows n).map ProdAgg.produit).Nodup ∧
    List.Sorted (fun a b : Rat => b ≤ a) ((topProduits rows n).map ProdAgg.ca) := by
  unfold topProduits
  refine ⟨List.length_take_le _ _, ?_, ?_⟩
  · have hkeys : (prodGroups rows).map ProdAgg.produit = prodKeys rows := by
      unfold prodGroups
      rw [List.map_map]
      exact List.map_id _
    have hnk : (prodKeys rows).Nodup :=
      (List.nodup_dedup _).perm (List.perm_insertionSort strLe _).symm
    have hng : ((prodGroups rows).map ProdAgg.produit).Nodup := by
      rw [hkeys]; exact hnk
    have hperm : ((List.insertionSort caGe (prodGroups rows)).map ProdAgg.produit).Perm
        ((prodGroups rows).map ProdAgg.produit) :=
      (List.perm_insertionSort caGe _).map _
    have hns : ((List.insertionSort caGe (prodGroups rows)).map ProdAgg.produit).Nodup :=
      hng.perm hperm.symm
    rw [List.map_take]
    exact (List.take_sublist _ _).nodup hns
  · have hs : List.Sorted caGe (List.insertionSort caGe (prodGroups rows)) :=
      List.sorted_insertionSort caGe _
    have ht : List.Sorted caGe ((List.insertionSort caGe (prodGroups rows)).take n) :=
      List.Pairwise.sublist (List.take_sublist _ _) hs
    exact List.Pairwise.map ProdAgg.ca (fun a b h => h) ht

/-- C9: the five filter predicates are row-local and their conditional
application commutes — applying the steps in any order yields exactly the
row set of the program's order. -/
theorem claim_C9 (ds : Dataset) (c : Criteria) (order : List (Fin 5))
    (h : order.Perm [0, 1, 2, 3, 4]) :
    applyOrder ds c order = applyFilters ds c := by
  rw [applyFilters_eq_applyOrder, applyOrder_eq_filter, applyOrder_eq_filter]
  exact List.filter_congr (fun r _ => all_of_perm h _)

/-- Witness for C9: the fully reversed order on a two-row dataset with
every predicate enabled gives the program's result, the single matching
row. -/
theorem claim_C9_witness :
    applyOrder exDsMix exCritMix [4, 3, 2, 1, 0] = applyFilters exDsMix exCritMix ∧
    applyFilters exDsMix exCritMix = [exRowMix1] :=
  ⟨claim_C9 exDsMix exCritMix [4, 3, 2, 1, 0] (by decide), by decide⟩

/-- C10: the product text filter is regular-expression based, not literal:
on metacharacter-free patterns `str.contains` coincides with
case-insensitive literal substring search, while the metacharacter '.'
matches any character — the pattern "A.C" matches the product "ABC", and
the filter keeps that row, although "A.C" is not a literal substring of
"ABC". -/
theorem claim_C10 :
    (∀ pat s : String, (pat.toList.map asciiLower).all (fun ch => !isMeta ch) = true →
      regexContains pat s = literalContains pat s) ∧
    regexContains "A.C" "ABC" = true ∧
    literalContains "A.C" "ABC" = false ∧
    textStep true "A.C" [exRowABC] = [exRowABC] := by
  refine ⟨?_, by decide, by decide, by decide⟩
  intro pat s hmeta
  unfold regexContains literalContains
  rw [parsePat_noMeta _ hmeta]
  exact rsearch_lits _ _

/-- Witness for C10 on metacharacter-free patterns: "asp" and "para"
behave as case-insensitive literal substring filters on "PARACETAMOL". -/
theorem claim_C10_witness :
    regexContains "asp" "PARACETAMOL" = literalContains "asp" "PARACETAMOL" ∧
    regexContains "para" "PARACETAMOL" = literalContains "para" "PARACETAMOL" ∧
    regexContains "para" "PARACETAMOL" = true :=
  ⟨claim_C10.1 "asp" "PARACETAMOL" (by decide),
   claim_C10.1 "para" "PARACETAMOL" (by decide),
   by decide⟩
